import Mathlib

/-!
Verification development for the universal deduplication pipeline
(`src/splink_pipeline.py`).  The Python functions are shallowly embedded
as executable Lean definitions over an explicit dataframe model:

* a cell is `Option String` (`none` models a pandas missing value / NaN;
  dataframes in this pipeline are loaded from CSV, whose columns hold
  strings or numbers — a present value is modelled by its Python string
  form, which is what every operation of the pipeline applies to it);
* a column carries a name, a pandas dtype tag and its list of cells;
  `pd.read_csv` without dtype options produces only object columns and
  numeric (int/float/bool) columns, so the dtype tag has two values;
* a dataframe carries its row count and its column list; row labels are
  the default RangeIndex `0, 1, …, nrows-1`, so `row.name` (the label
  stored by the blocking loop) coincides with the positional index used
  by `df.iloc`.

Wall-clock timing (`total_time`) and the CSV persistence side effect of
the pipeline are not modelled; no claim refers to them.
-/

/-! ### Python string primitives -/

/-- The whitespace characters recognised by Python's `str.split` /
`str.strip` (ASCII fragment). -/
def isPySpace (ch : Char) : Bool :=
  ch = ' ' || ch = '\t' || ch = '\n' || ch = '\r' || ch = '\x0b' || ch = '\x0c'

/-- Python `str.strip()`: drop whitespace from both ends. -/
def stripPy (s : String) : String :=
  ⟨((s.toList.dropWhile isPySpace).reverse.dropWhile isPySpace).reverse⟩

/-- The first whitespace-delimited token of `s` (`s.split()[0]` when
`s.split()` is non-empty), `none` when `s.split() == []`. -/
def firstToken (s : String) : Option String :=
  match s.toList.dropWhile isPySpace with
  | [] => none
  | c :: cs => some ⟨(c :: cs).takeWhile (fun ch => !isPySpace ch)⟩

/-- Python `str.lower()` (ASCII): per-character lowercase.  (Defined by
a structural map so that concrete instances evaluate.) -/
def lowerPy (s : String) : String :=
  ⟨s.toList.map Char.toLower⟩

/-! ### Cells, columns and dataframes -/

/-- A dataframe cell: `none` is a pandas missing value (NaN). -/
abbrev Cell := Option String

/-- Python `str(...)` applied to a cell: `str` of a float NaN is the
literal text `"nan"`. -/
def pyStr (c : Cell) : String :=
  match c with
  | none => "nan"
  | some s => s

/-- Pandas dtype of a CSV-loaded column: `obj` (strings) or `numeric`
(`pd.api.types.is_numeric_dtype`, which also covers bool). -/
inductive Dtype where
  | obj : Dtype
  | numeric : Dtype
deriving Repr, DecidableEq

structure Column where
  name : String
  dtype : Dtype
  values : List Cell
deriving Repr, DecidableEq

structure DataFrame where
  nrows : Nat
  cols : List Column
deriving Repr, DecidableEq

/-- `col in df.columns`. -/
def DataFrame.hasCol (df : DataFrame) (col : String) : Bool :=
  df.cols.any (fun c => c.name == col)

/-- `df.iloc[i][col]` (missing column or row defaults to NaN; the
pipeline only dereferences columns it has checked and rows `< nrows`). -/
def DataFrame.getCell (df : DataFrame) (col : String) (i : Nat) : Cell :=
  match df.cols.find? (fun c => c.name == col) with
  | some c => c.values.getD i none
  | none => none

/-- `f"REC_{i:06d}"`: zero-padded six-digit synthetic record id. -/
def recName (i : Nat) : String :=
  let s := toString i
  "REC_" ++ ⟨List.replicate (6 - s.length) '0'⟩ ++ s

/-- Lines 18–20 of `universal_deduplication`: add a synthetic
`record_id` column (appended at the end, as pandas column assignment
does) when the input has none. -/
def addRecordIds (df : DataFrame) : DataFrame :=
  if df.hasCol "record_id" then df
  else { df with cols := df.cols ++
          [⟨"record_id", Dtype.obj, (List.range df.nrows).map (fun i => some (recName i))⟩] }

/-- `df.iloc[i]['record_id']`. -/
def rid (df : DataFrame) (i : Nat) : Cell :=
  df.getCell "record_id" i

/-! ### Column classifier (`classify_columns`) -/

/-- `df[col].dropna().astype(str).str.lower()`. -/
def sampleOf (c : Column) : List String :=
  (c.values.filterMap id).map lowerPy

/-- `sample.nunique() / len(sample)` (only evaluated on a non-empty
sample; on an empty sample the Python raises `ZeroDivisionError`,
which `classifyAux` models explicitly). -/
def uniqueRatioOf (c : Column) : ℚ :=
  ((sampleOf c).dedup.length : ℚ) / ((sampleOf c).length : ℚ)

/-- `sample.str.len().mean()` (only evaluated on a non-empty sample). -/
def avgLenOf (c : Column) : ℚ :=
  (((sampleOf c).map (fun s => (s.length : ℚ))).sum) / ((sampleOf c).length : ℚ)

def exactKeywords : List String :=
  ["id", "code", "sku", "order", "claim", "invoice", "transaction"]

def nameKeywords : List String :=
  ["name", "customer", "client", "employee", "product", "item", "guest"]

/-- `any(x in col_lower for x in kws)` (case-insensitive substring;
Python `k in s` is contiguous-substring containment). -/
def containsAny (s : String) (kws : List String) : Bool :=
  kws.any (fun k => decide (List.IsInfix k.toList s.toList))

/-- The five classification buckets. -/
inductive Cat where
  | exactKey : Cat
  | nameLike : Cat
  | freeText : Cat
  | genString : Cat
  | numberCat : Cat
deriving Repr, DecidableEq

/-- The `if/elif` classification chain of `classify_columns`
(lines 110–131), for a column with a non-empty sample.  The Python
chain has no final `else`, so a column matching no rule lands in no
bucket (`none`). -/
def catOf (c : Column) : Option Cat :=
  let ur := uniqueRatioOf c
  let al := avgLenOf c
  let colLower := lowerPy c.name
  if ur > (8 : ℚ)/10 ∨ containsAny colLower exactKeywords ∨ c.dtype = Dtype.numeric then
    some Cat.exactKey
  else if ((1 : ℚ)/10 < ur ∧ ur < (8 : ℚ)/10) ∧ containsAny colLower nameKeywords then
    some Cat.nameLike
  else if al > 10 ∧ ur < (1 : ℚ)/2 then
    some Cat.freeText
  else if c.dtype = Dtype.obj then
    some Cat.genString
  else if c.dtype = Dtype.numeric then
    some Cat.numberCat
  else
    none

/-- The classifier's result: five category lists (`strings` carries the
uniqueness ratio until the final sort). -/
structure RawColTypes where
  exact : List String
  names : List String
  text : List String
  strings : List (String × ℚ)
  numbers : List String
deriving Repr, DecidableEq

structure ColTypes where
  exact : List String
  names : List String
  text : List String
  strings : List String
  numbers : List String
deriving Repr, DecidableEq

def emptyRaw : RawColTypes := ⟨[], [], [], [], []⟩

def zdErr : String := "ZeroDivisionError: division by zero"

/-- Place one classified column at the head of its bucket. -/
def pushCat (c : Column) : Option Cat → RawColTypes → RawColTypes
  | some Cat.exactKey, r => { r with exact := c.name :: r.exact }
  | some Cat.nameLike, r => { r with names := c.name :: r.names }
  | some Cat.freeText, r => { r with text := c.name :: r.text }
  | some Cat.genString, r => { r with strings := (c.name, uniqueRatioOf c) :: r.strings }
  | some Cat.numberCat, r => { r with numbers := c.name :: r.numbers }
  | none, r => r

/-- The column loop of `classify_columns`: skip `record_id`; computing
`unique_ratio` on a column whose non-missing sample is empty raises
`ZeroDivisionError` (there is no guard in the code), which aborts the
whole classification. -/
def classifyAux : List Column → Except String RawColTypes
  | [] => Except.ok emptyRaw
  | c :: rest =>
      if c.name = "record_id" then classifyAux rest
      else if sampleOf c = [] then Except.error zdErr
      else (classifyAux rest).map (pushCat c (catOf c))

/-- Stable insertion for `sorted(..., key=ratio, reverse=True)`. -/
def insertDesc (x : String × ℚ) : List (String × ℚ) → List (String × ℚ)
  | [] => [x]
  | y :: ys => if x.2 ≥ y.2 then x :: y :: ys else y :: insertDesc x ys

/-- `sorted(col_types['strings'], key=lambda x: x[1], reverse=True)`. -/
def sortDesc (xs : List (String × ℚ)) : List (String × ℚ) :=
  xs.foldr insertDesc []

/-- `classify_columns` (lines 88–136): classify every column, then sort
the generic-string bucket by descending uniqueness ratio. -/
def classify_columns (df : DataFrame) : Except String ColTypes :=
  (classifyAux df.cols).map (fun r =>
    { exact := r.exact, names := r.names, text := r.text,
      strings := (sortDesc r.strings).map (fun p => p.1), numbers := r.numbers })

/-! ### Exact matcher (`find_exact_matches`) -/

/-- An emitted candidate pair (one row of the predictions table). -/
structure Match where
  record_id_l : Cell
  record_id_r : Cell
  match_score : ℚ
  match_tier : String
deriving Repr, DecidableEq

/-- All ordered pairs `(l[i], l[j])` with `i < j`, in the order the
nested `for i / for j in range(i+1, …)` loops produce them. -/
def pairsOf {α : Type} : List α → List (α × α)
  | [] => []
  | x :: xs => xs.map (fun y => (x, y)) ++ pairsOf xs

/-- The column `col` of `df` as a list of cells by row. -/
def colCells (df : DataFrame) (col : String) : List Cell :=
  (List.range df.nrows).map (fun i => df.getCell col i)

/-- Row indices holding the (present) value `v` in column `col`, in row
order — one group of `dups.groupby(col)`. -/
def groupRows (df : DataFrame) (col : String) (v : String) : List Nat :=
  (List.range df.nrows).filter (fun i => df.getCell col i == some v)

/-- The distinct present values occurring at least twice in `col`:
`df.duplicated(subset=[col], keep=False)` keeps exactly the rows whose
value occurs ≥ 2 times, and `groupby` drops the NaN group.  (Pandas
iterates the groups in sorted key order; this model iterates them in
first-occurrence order.  No property below depends on group order.) -/
def dupValues (df : DataFrame) (col : String) : List String :=
  ((colCells df col).filterMap id).dedup.filter
    (fun v => 2 ≤ (colCells df col).count (some v))

/-- The `C(n,2)` pairs one value group contributes (score 1.0, tier
EXACT). -/
def groupContribution (df : DataFrame) (col : String) (v : String) : List Match :=
  (pairsOf (groupRows df col v)).map
    (fun p => ⟨rid df p.1, rid df p.2, 1, "EXACT"⟩)

/-- The matches one exact-key column contributes (guarded by
`if col in df.columns`). -/
def exactMatchesForCol (df : DataFrame) (col : String) : List Match :=
  if df.hasCol col then (dupValues df col).flatMap (groupContribution df col) else []

/-- `find_exact_matches` (lines 138–155). -/
def find_exact_matches (df : DataFrame) (exactCols : List String) : List Match :=
  exactCols.flatMap (exactMatchesForCol df)

/-! ### Fuzzy scorer (`calculate_fuzzy_score`) -/

/-- Longest common subsequence length (reference implementation; used
only to define the rapidfuzz similarity below). -/
def lcsLen : List Char → List Char → Nat
  | [], _ => 0
  | _ :: _, [] => 0
  | a :: as, b :: bs =>
      if a = b then lcsLen as bs + 1
      else max (lcsLen (a :: as) bs) (lcsLen as (b :: bs))
termination_by xs ys => xs.length + ys.length

/-- `rapidfuzz.fuzz.ratio`: the normalized InDel similarity scaled to
[0,100], i.e. `100·(1 − dist/(|a|+|b|))` with
`dist = |a|+|b| − 2·lcs`; 100 when both strings are empty.  (The
Python value is a float; this model computes the exact rational.) -/
def fuzz_ratio (a b : String) : ℚ :=
  if a.length + b.length = 0 then 100
  else (200 * (lcsLen a.toList b.toList : ℚ)) / ((a.length : ℚ) + (b.length : ℚ))

/-- `str(df.iloc[i][col]).lower().strip()` — note a missing value
stringifies to the literal `"nan"` before normalization. -/
def normVal (df : DataFrame) (col : String) (i : Nat) : String :=
  stripPy (lowerPy (pyStr (df.getCell col i)))

/-- Whether column `col` contributes to the score of rows `i, j`:
the column exists and both normalized values are non-empty (Python
truthiness) and different. -/
def contributesCol (df : DataFrame) (i j : Nat) (col : String) : Bool :=
  df.hasCol col && normVal df col i ≠ "" && normVal df col j ≠ ""
    && normVal df col i ≠ normVal df col j

/-- The sub-list of `cols` that contributes to the average. -/
def contributingCols (df : DataFrame) (i j : Nat) (cols : List String) : List String :=
  cols.filter (contributesCol df i j)

/-- `calculate_fuzzy_score` (lines 203–218): running `(total_score,
valid_cols)` accumulator over the column list, then the mean (0 when no
column contributed). -/
def calculate_fuzzy_score (df : DataFrame) (i j : Nat) (cols : List String) : ℚ :=
  let r := cols.foldl
    (fun (acc : ℚ × Nat) col =>
      if contributesCol df i j col then
        (acc.1 + fuzz_ratio (normVal df col i) (normVal df col j), acc.2 + 1)
      else acc)
    (0, 0)
  if r.2 > 0 then r.1 / (r.2 : ℚ) else 0

/-! ### Blocking indexer and fuzzy strategy (`fuzzy_match_strategy`) -/

/-- The block key of one cell (lines 171–177): lower-cased string form;
`"unknown"` when the value is missing (`pd.isna`) or the lower-cased
form has fewer than 3 characters; else the first whitespace token
truncated to 3 characters, or the first 3 characters when `split()`
yields no token (all-whitespace string). -/
def blockKey (c : Cell) : String :=
  let bk := lowerPy (pyStr c)
  if c = none ∨ bk.length < 3 then "unknown"
  else
    match firstToken bk with
    | some w => w.take 3
    | none => bk.take 3

/-- Append row `i` to the block of key `k` (insertion-ordered dict of
lists, as the Python `blocks` dict behaves). -/
def addToBlock (bs : List (String × List Nat)) (k : String) (i : Nat) :
    List (String × List Nat) :=
  match bs with
  | [] => [(k, [i])]
  | (k', is') :: rest =>
      if k' = k then (k', is' ++ [i]) :: rest else (k', is') :: addToBlock rest k i

/-- The blocking loop over rows `0 … n-1` (`df.iterrows()` appends
`row.name`, which is the positional index under the default
RangeIndex). -/
def buildBlocks (df : DataFrame) (blockCol : String) : List (String × List Nat) :=
  (List.range df.nrows).foldl
    (fun bs i => addToBlock bs (blockKey (df.getCell blockCol i)) i) []

/-- What one block contributes (lines 184–199): skipped when smaller
than 2 or larger than `max_block_size`; otherwise all `i < j` pairs
whose fuzzy score reaches the threshold, scores rescaled to [0,1]. -/
def blockContribution (df : DataFrame) (cols : List String) (threshold : ℚ)
    (tier : String) (maxBlockSize : Nat) (idxs : List Nat) : List Match :=
  if idxs.length < 2 ∨ idxs.length > maxBlockSize then []
  else (pairsOf idxs).filterMap (fun p =>
    let score := calculate_fuzzy_score df p.1 p.2 cols
    if score ≥ threshold then
      some ⟨rid df p.1, rid df p.2, score / 100, tier⟩
    else none)

/-- `fuzzy_match_strategy` (lines 157–201). -/
def fuzzy_match_strategy (df : DataFrame) (cols : List String) (threshold : ℚ)
    (tier : String) (maxBlockSize : Nat := 100) : List Match :=
  match cols with
  | [] => []
  | blockCol :: _ =>
      if df.hasCol blockCol then
        (buildBlocks df blockCol).flatMap
          (fun e => blockContribution df cols threshold tier maxBlockSize e.2)
      else []

/-! ### Tiered aggregation and driver (`universal_deduplication`,
`run_dynamic_dedup`) -/

/-- The dedup key of a candidate pair: the ordered
`(record_id_l, record_id_r)` identity used by `drop_duplicates`. -/
def keyOf (m : Match) : Cell × Cell := (m.record_id_l, m.record_id_r)

/-- `drop_duplicates(subset=['record_id_l','record_id_r'])`: keep the
first occurrence of every key. -/
def dedupGo (seen : List (Cell × Cell)) : List Match → List Match
  | [] => []
  | m :: rest =>
      if keyOf m ∈ seen then dedupGo seen rest
      else m :: dedupGo (keyOf m :: seen) rest

/-- The HIGH tier (strategy 2): names at threshold 95, only when
name-like columns exist. -/
def highMatches (df : DataFrame) (ct : ColTypes) : List Match :=
  if ct.names ≠ [] then fuzzy_match_strategy df ct.names 95 "HIGH" else []

/-- The MEDIUM tier (strategy 3): free-text at threshold 90. -/
def medMatches (df : DataFrame) (ct : ColTypes) : List Match :=
  if ct.text ≠ [] then fuzzy_match_strategy df ct.text 90 "MEDIUM" else []

/-- The LOW tier (strategy 4): top two generic strings at threshold 85. -/
def lowMatches (df : DataFrame) (ct : ColTypes) : List Match :=
  if ct.strings ≠ [] then fuzzy_match_strategy df (ct.strings.take 2) 85 "LOW" else []

/-- `all_matches` in the order the four strategies extend it. -/
def allMatches (df : DataFrame) (ct : ColTypes) : List Match :=
  find_exact_matches df ct.exact ++ highMatches df ct
    ++ medMatches df ct ++ lowMatches df ct

/-- The deduplicated final match set of a classified dataframe. -/
def finalMatches (df : DataFrame) (ct : ColTypes) : List Match :=
  dedupGo [] (allMatches df ct)

structure Tiers where
  EXACT : Nat
  HIGH : Nat
  MEDIUM : Nat
  LOW : Nat
deriving Repr, DecidableEq

/-- `value_counts` of `match_tier` over the defaults (every emitted
tier is one of the four labels). -/
def countTiers (ms : List Match) : Tiers :=
  ⟨ms.countP (fun m => m.match_tier == "EXACT"),
   ms.countP (fun m => m.match_tier == "HIGH"),
   ms.countP (fun m => m.match_tier == "MEDIUM"),
   ms.countP (fun m => m.match_tier == "LOW")⟩

/-- The summary dictionary returned to the caller (`total_time` not
modelled). -/
structure DedupResult where
  duplicate_pairs : Nat
  input_records : Nat
  detection_rate : ℚ
  tiers : Tiers
  col_types : Option ColTypes
deriving Repr, DecidableEq

/-- `universal_deduplication` (lines 9–86).  Raises (models the Python
exceptions) when classification divides by zero on an empty-sample
column, or when the detection-rate computation divides by
`len(df) == 0`. -/
def universal_deduplication (df0 : DataFrame) : Except String DedupResult :=
  let df := addRecordIds df0
  match classify_columns df with
  | Except.error e => Except.error e
  | Except.ok ct =>
      let final := finalMatches df ct
      if df.nrows = 0 then Except.error zdErr
      else Except.ok
        { duplicate_pairs := final.length,
          input_records := df.nrows,
          detection_rate := min 100 ((final.length : ℚ) * 2 / (df.nrows : ℚ) * 100),
          tiers := countTiers final,
          col_types := some ct }

/-- An input path, modelled by the outcomes of the two reads the driver
can attempt on it: `pd.read_csv(path, low_memory=False)` and the
fallback `pd.read_csv(path, nrows=1000)`.  A malformed-midway file can
fail the first and satisfy the second; an unreadable or missing file
fails both. -/
structure InputFile where
  fullRead : Except String DataFrame
  headRead : Except String DataFrame

/-- The body of `run_dynamic_dedup`'s `try` block. -/
def tryBranch (f : InputFile) : Except String DedupResult :=
  match f.fullRead with
  | Except.error e => Except.error e
  | Except.ok df => universal_deduplication df

/-- The zero-match fallback result built from the 1000-row re-read
(the synthetic `record_id = range(len(df))` column only feeds
`len(df)`). -/
def fallbackResult (df : DataFrame) : DedupResult :=
  { duplicate_pairs := 0, input_records := df.nrows, detection_rate := 0,
    tiers := ⟨0, 0, 0, 0⟩, col_types := none }

/-- `run_dynamic_dedup` (lines 220–236): any exception from the full
read or the pipeline is caught; the fallback then re-reads the first
1000 rows — and that second read is NOT guarded, so its failure
escapes to the caller. -/
def run_dynamic_dedup (f : InputFile) : Except String DedupResult :=
  match tryBranch f with
  | Except.ok r => Except.ok r
  | Except.error _ =>
      match f.headRead with
      | Except.ok df => Except.ok (fallbackResult df)
      | Except.error e => Except.error e

/-! ### Classifier lemmas -/

/-- A column lands in bucket `k`: not the identifier column, and the
classification chain selects `k`. -/
def isBucket (k : Cat) (c : Column) : Bool :=
  decide (c.name ≠ "record_id") && (catOf c == some k)

def bucketFilter (cs : List Column) (k : Cat) : List Column :=
  cs.filter (isBucket k)

lemma classifyAux_ok_char (cs : List Column) (r : RawColTypes)
    (h : classifyAux cs = Except.ok r) :
    r.exact = (bucketFilter cs Cat.exactKey).map Column.name ∧
    r.names = (bucketFilter cs Cat.nameLike).map Column.name ∧
    r.text = (bucketFilter cs Cat.freeText).map Column.name ∧
    r.strings = (bucketFilter cs Cat.genString).map (fun c => (c.name, uniqueRatioOf c)) ∧
    r.numbers = (bucketFilter cs Cat.numberCat).map Column.name := by
  induction cs generalizing r with
  | nil =>
      simp only [classifyAux, Except.ok.injEq] at h
      subst h
      simp [bucketFilter, emptyRaw]
  | cons c rest ih =>
      by_cases hrid : c.name = "record_id"
      · simp only [classifyAux, if_pos hrid] at h
        obtain ⟨e1, e2, e3, e4, e5⟩ := ih r h
        simp [bucketFilter, List.filter_cons, isBucket, hrid, e1, e2, e3, e4, e5]
      · by_cases hsmp : sampleOf c = []
        · simp [classifyAux, hrid, hsmp] at h
        · simp only [classifyAux, if_neg hrid, if_neg hsmp] at h
          cases hrest : classifyAux rest with
          | error e => rw [hrest] at h; simp [Except.map] at h
          | ok r' =>
              rw [hrest] at h
              simp only [Except.map, Except.ok.injEq] at h
              subst h
              obtain ⟨e1, e2, e3, e4, e5⟩ := ih r' hrest
              cases hcat : catOf c with
              | none =>
                  simp [pushCat, bucketFilter, List.filter_cons, isBucket, hrid, hcat,
                        e1, e2, e3, e4, e5]
              | some k =>
                  cases k <;>
                    simp [pushCat, bucketFilter, List.filter_cons, isBucket, hrid, hcat,
                          e1, e2, e3, e4, e5]

/-- An eligible column with an empty non-missing sample makes the whole
classification raise `ZeroDivisionError`. -/
lemma classifyAux_error_of_empty (cs : List Column)
    (h : ∃ c ∈ cs, c.name ≠ "record_id" ∧ sampleOf c = []) :
    classifyAux cs = Except.error zdErr := by
  induction cs with
  | nil => simp at h
  | cons c rest ih =>
      by_cases hrid : c.name = "record_id"
      · simp only [classifyAux, if_pos hrid]
        apply ih
        obtain ⟨c', hc', hne, hs⟩ := h
        rcases List.mem_cons.mp hc' with rfl | hmem
        · exact absurd hrid hne
        · exact ⟨c', hmem, hne, hs⟩
      · by_cases hsmp : sampleOf c = []
        · simp [classifyAux, hrid, hsmp]
        · simp only [classifyAux, if_neg hrid, if_neg hsmp]
          have : classifyAux rest = Except.error zdErr := by
            apply ih
            obtain ⟨c', hc', hne, hs⟩ := h
            rcases List.mem_cons.mp hc' with rfl | hmem
            · exact absurd hs hsmp
            · exact ⟨c', hmem, hne, hs⟩
          rw [this]; rfl

/-- The chain never selects the numeric bucket: its guard
(`is_numeric_dtype`) is already a disjunct of rule 1. -/
lemma catOf_ne_number (c : Column) : catOf c ≠ some Cat.numberCat := by
  unfold catOf
  repeat' split
  all_goals (try simp_all)
  all_goals (repeat' split) <;> simp_all

/-- With the two CSV dtypes, the chain always selects a bucket. -/
lemma catOf_isSome (c : Column) : (catOf c).isSome = true := by
  unfold catOf
  repeat' split
  all_goals (try simp_all)
  all_goals (try (cases hd : c.dtype <;> simp_all))
  all_goals (repeat' split) <;> simp_all

/-- Membership is invariant under the descending-ratio sort. -/
lemma mem_insertDesc (x y : String × ℚ) (xs : List (String × ℚ)) :
    y ∈ insertDesc x xs ↔ y = x ∨ y ∈ xs := by
  induction xs with
  | nil => simp [insertDesc]
  | cons z zs ih =>
      by_cases h : x.2 ≥ z.2
      · simp [insertDesc, h]
      · simp [insertDesc, h, ih]
        tauto

lemma mem_sortDesc (y : String × ℚ) (xs : List (String × ℚ)) :
    y ∈ sortDesc xs ↔ y ∈ xs := by
  induction xs with
  | nil => simp [sortDesc]
  | cons z zs ih =>
      simp only [sortDesc, List.foldr_cons] at *
      rw [mem_insertDesc]
      simp [ih]

/-- Invert `classify_columns df = ok ct` to the raw bucket lists. -/
lemma classify_ok_inv (df : DataFrame) (ct : ColTypes)
    (hok : classify_columns df = Except.ok ct) :
    ∃ r, classifyAux df.cols = Except.ok r ∧
      ct.exact = r.exact ∧ ct.names = r.names ∧ ct.text = r.text ∧
      ct.strings = (sortDesc r.strings).map (fun p => p.1) ∧ ct.numbers = r.numbers := by
  unfold classify_columns at hok
  cases hr : classifyAux df.cols with
  | error e => rw [hr] at hok; simp [Except.map] at hok
  | ok r =>
      rw [hr] at hok
      simp only [Except.map, Except.ok.injEq] at hok
      subst hok
      exact ⟨r, rfl, rfl, rfl, rfl, rfl, rfl⟩

/-- Membership in each returned category list, in terms of the source
columns. -/
lemma classify_ok_mem (df : DataFrame) (ct : ColTypes)
    (hok : classify_columns df = Except.ok ct) :
    (∀ x, x ∈ ct.exact ↔ ∃ c ∈ df.cols, isBucket Cat.exactKey c ∧ c.name = x) ∧
    (∀ x, x ∈ ct.names ↔ ∃ c ∈ df.cols, isBucket Cat.nameLike c ∧ c.name = x) ∧
    (∀ x, x ∈ ct.text ↔ ∃ c ∈ df.cols, isBucket Cat.freeText c ∧ c.name = x) ∧
    (∀ x, x ∈ ct.strings ↔ ∃ c ∈ df.cols, isBucket Cat.genString c ∧ c.name = x) ∧
    (∀ x, x ∈ ct.numbers ↔ ∃ c ∈ df.cols, isBucket Cat.numberCat c ∧ c.name = x) := by
  obtain ⟨r, hr, e1, e2, e3, e4, e5⟩ := classify_ok_inv df ct hok
  obtain ⟨f1, f2, f3, f4, f5⟩ := classifyAux_ok_char df.cols r hr
  refine ⟨?_, ?_, ?_, ?_, ?_⟩
  · intro x
    rw [e1, f1]
    simp [bucketFilter, List.mem_filter]
    tauto
  · intro x
    rw [e2, f2]
    simp [bucketFilter, List.mem_filter]
    tauto
  · intro x
    rw [e3, f3]
    simp [bucketFilter, List.mem_filter]
    tauto
  · intro x
    rw [e4]
    constructor
    · intro hx
      obtain ⟨p, hp, hpx⟩ := List.mem_map.mp hx
      rw [mem_sortDesc] at hp
      rw [f4] at hp
      obtain ⟨c, hcmem, hcp⟩ := List.mem_map.mp hp
      refine ⟨c, (List.mem_filter.mp hcmem).1, ?_, ?_⟩
      · have := (List.mem_filter.mp hcmem).2
        simpa [isBucket] using this
      · rw [← hcp] at hpx; exact hpx
    · rintro ⟨c, hcmem, hb, rfl⟩
      apply List.mem_map.mpr
      refine ⟨(c.name, uniqueRatioOf c), ?_, rfl⟩
      rw [mem_sortDesc, f4]
      exact List.mem_map.mpr ⟨c, List.mem_filter.mpr ⟨hcmem, hb⟩, rfl⟩
  · intro x
    rw [e5, f5]
    simp [bucketFilter, List.mem_filter]
    tauto

lemma isBucket_iff (k : Cat) (c : Column) :
    isBucket k c = true ↔ c.name ≠ "record_id" ∧ catOf c = some k := by
  simp [isBucket]

/-! ### Claim C2 -/

/-- A two-row dataframe whose single data column is entirely missing. -/
def dfAllMissing : DataFrame :=
  ⟨2, [⟨"notes", Dtype.obj, [none, none]⟩]⟩

/-- C2 (counterexample): a column with zero non-missing values is NOT
skipped by the column classifier — classifying a dataframe containing
one makes the classification step fail with the (modelled)
`ZeroDivisionError` raised by `sample.nunique() / len(sample)`, rather
than complete with the column unassigned. -/
theorem claim_C2_counterexample :
    classify_columns dfAllMissing = Except.error zdErr := by rfl

/-- C2 (amended): for every dataset, a column all of whose values are
missing is not classified — but not by being skipped: its
uniqueness-ratio computation divides by the zero non-missing count, so
the whole classification step fails with `ZeroDivisionError` (the
pipeline driver later swallows this failure). -/
theorem claim_C2_amended (df : DataFrame) (c : Column) (hc : c ∈ df.cols)
    (hname : c.name ≠ "record_id") (hempty : sampleOf c = []) :
    classify_columns df = Except.error zdErr := by
  unfold classify_columns
  rw [classifyAux_error_of_empty df.cols ⟨c, hc, hname, hempty⟩]
  rfl

/-- C2 (amended, witness): the amended statement applied to the
concrete all-missing dataframe. -/
theorem claim_C2_amended_witness :
    (⟨"notes", Dtype.obj, [none, none]⟩ : Column) ∈ dfAllMissing.cols ∧
    classify_columns dfAllMissing = Except.error zdErr :=
  ⟨by decide,
   claim_C2_amended dfAllMissing ⟨"notes", Dtype.obj, [none, none]⟩
     (by decide) (by decide) (by decide)⟩

/-! ### Claim C10 -/

/-- C10: the `numbers` bucket of a successful classification is always
empty — the numeric-dtype test of rule 5 is a disjunct of rule 1, so
the numeric-fallback branch is unreachable. -/
theorem claim_C10 (df : DataFrame) (ct : ColTypes)
    (h : classify_columns df = Except.ok ct) : ct.numbers = [] := by
  obtain ⟨r, hr, _, _, _, _, e5⟩ := classify_ok_inv df ct h
  obtain ⟨-, -, -, -, f5⟩ := classifyAux_ok_char df.cols r hr
  rw [e5, f5]
  have : bucketFilter df.cols Cat.numberCat = [] := by
    apply List.filter_eq_nil_iff.mpr
    intro c _
    intro hb
    exact catOf_ne_number c ((isBucket_iff Cat.numberCat c).mp hb).2
  rw [this]
  rfl

/-- A guest-name column: uniqueness ratio 2/4, name keyword "guest". -/
def cguest : Column :=
  ⟨"guest", Dtype.obj, [some "Ann B", some "Ann B", some "Carl D", some "Carl D"]⟩

/-- A numeric quantity column. -/
def cqty : Column :=
  ⟨"qty", Dtype.numeric, [some "5", some "5", some "7", some "7"]⟩

/-- A small dataframe that classifies successfully. -/
def dfSmall : DataFrame := ⟨4, [cguest, cqty]⟩

lemma uniqueRatio_cguest : uniqueRatioOf cguest = 1/2 := by
  rw [uniqueRatioOf,
      show (sampleOf cguest).dedup.length = 2 from by decide,
      show (sampleOf cguest).length = 4 from by decide]
  norm_num

lemma catOf_cguest : catOf cguest = some Cat.nameLike := by
  simp only [catOf]
  rw [if_neg, if_pos]
  · exact ⟨⟨by rw [uniqueRatio_cguest]; norm_num,
            by rw [uniqueRatio_cguest]; norm_num⟩, by decide⟩
  · rintro (h | h | h)
    · rw [uniqueRatio_cguest] at h; norm_num at h
    · revert h; decide
    · revert h; decide

lemma catOf_cqty : catOf cqty = some Cat.exactKey := by
  simp only [catOf]
  rw [if_pos]
  exact Or.inr (Or.inr rfl)

lemma classify_dfSmall :
    classify_columns dfSmall = Except.ok ⟨["qty"], ["guest"], [], [], []⟩ := by
  have h2 : classifyAux [cqty] = Except.ok ⟨["qty"], [], [], [], []⟩ := by
    rw [classifyAux, if_neg (by decide), if_neg (by decide), catOf_cqty]
    rfl
  have h1 : classifyAux [cguest, cqty] = Except.ok ⟨["qty"], ["guest"], [], [], []⟩ := by
    rw [classifyAux, if_neg (by decide), if_neg (by decide), catOf_cguest, h2]
    rfl
  rw [classify_columns, show dfSmall.cols = [cguest, cqty] from rfl, h1]
  rfl

/-- C10 (witness): on the concrete dataframe the classification
succeeds and its `numbers` bucket is empty. -/
theorem claim_C10_witness :
    ∃ ct, classify_columns dfSmall = Except.ok ct ∧ ct.numbers = [] :=
  ⟨_, classify_dfSmall, claim_C10 dfSmall _ classify_dfSmall⟩

/-! ### Claim C3 -/

/-- C3: for a dataframe with distinct column names whose classification
succeeds, every eligible column (not the identifier, at least one
non-missing value) appears in exactly one of the five category lists:
the lists are pairwise disjoint and jointly cover the eligible
columns. -/
theorem claim_C3 (df : DataFrame) (ct : ColTypes) (c : Column)
    (hok : classify_columns df = Except.ok ct)
    (hnd : (df.cols.map Column.name).Nodup)
    (hc : c ∈ df.cols) (hname : c.name ≠ "record_id")
    (hsample : sampleOf c ≠ []) :
    ([ct.exact, ct.names, ct.text, ct.strings, ct.numbers].countP
        (fun l => l.contains c.name)) = 1 := by
  obtain ⟨h1, h2, h3, h4, h5⟩ := classify_ok_mem df ct hok
  obtain ⟨k, hk⟩ := Option.isSome_iff_exists.mp (catOf_isSome c)
  have hinj : ∀ c' ∈ df.cols, c'.name = c.name → c' = c := fun c' hc' he =>
    List.inj_on_of_nodup_map hnd hc' hc he
  have key : ∀ k' (xs : List String),
      (∀ x, x ∈ xs ↔ ∃ c' ∈ df.cols, isBucket k' c' ∧ c'.name = x) →
      (xs.contains c.name = true ↔ k' = k) := by
    intro k' xs hx
    constructor
    · intro hcont
      obtain ⟨c', hc', hb, hn⟩ := (hx c.name).mp (List.elem_iff.mp hcont)
      have : c' = c := hinj c' hc' hn
      subst this
      have := ((isBucket_iff k' c').mp hb).2
      rw [hk] at this
      exact (Option.some_inj.mp this).symm
    · intro hkk
      refine List.elem_iff.mpr
        ((hx c.name).mpr ⟨c, hc, (isBucket_iff k' c).mpr ⟨hname, ?_⟩, rfl⟩)
      rw [hkk]
      exact hk
  have hfalse : ∀ k' (xs : List String),
      (∀ x, x ∈ xs ↔ ∃ c' ∈ df.cols, isBucket k' c' ∧ c'.name = x) →
      k' ≠ k → xs.contains c.name = false := by
    intro k' xs hx hne
    cases hcont : xs.contains c.name with
    | false => rfl
    | true => exact absurd ((key k' xs hx).mp hcont) hne
  have hknn : k ≠ Cat.numberCat := by
    intro h
    rw [h] at hk
    exact catOf_ne_number c hk
  cases k with
  | exactKey =>
      rw [List.countP_cons, List.countP_cons, List.countP_cons, List.countP_cons,
          List.countP_cons, List.countP_nil,
          (key Cat.exactKey ct.exact h1).mpr rfl,
          hfalse Cat.nameLike ct.names h2 (by simp),
          hfalse Cat.freeText ct.text h3 (by simp),
          hfalse Cat.genString ct.strings h4 (by simp),
          hfalse Cat.numberCat ct.numbers h5 (by simp)]
      rfl
  | nameLike =>
      rw [List.countP_cons, List.countP_cons, List.countP_cons, List.countP_cons,
          List.countP_cons, List.countP_nil,
          (key Cat.nameLike ct.names h2).mpr rfl,
          hfalse Cat.exactKey ct.exact h1 (by simp),
          hfalse Cat.freeText ct.text h3 (by simp),
          hfalse Cat.genString ct.strings h4 (by simp),
          hfalse Cat.numberCat ct.numbers h5 (by simp)]
      rfl
  | freeText =>
      rw [List.countP_cons, List.countP_cons, List.countP_cons, List.countP_cons,
          List.countP_cons, List.countP_nil,
          (key Cat.freeText ct.text h3).mpr rfl,
          hfalse Cat.exactKey ct.exact h1 (by simp),
          hfalse Cat.nameLike ct.names h2 (by simp),
          hfalse Cat.genString ct.strings h4 (by simp),
          hfalse Cat.numberCat ct.numbers h5 (by simp)]
      rfl
  | genString =>
      rw [List.countP_cons, List.countP_cons, List.countP_cons, List.countP_cons,
          List.countP_cons, List.countP_nil,
          (key Cat.genString ct.strings h4).mpr rfl,
          hfalse Cat.exactKey ct.exact h1 (by simp),
          hfalse Cat.nameLike ct.names h2 (by simp),
          hfalse Cat.freeText ct.text h3 (by simp),
          hfalse Cat.numberCat ct.numbers h5 (by simp)]
      rfl
  | numberCat => exact absurd rfl hknn

/-- C3 (witness): the guest column of the concrete dataframe lies in
exactly one category list. -/
theorem claim_C3_witness :
    ([(["qty"] : List String), ["guest"], [], [], []].countP
        (fun l => l.contains "guest")) = 1 := by
  have h := claim_C3 dfSmall ⟨["qty"], ["guest"], [], [], []⟩ cguest
    classify_dfSmall (by decide) (by decide) (by decide) (by decide)
  simp only [cguest] at h
  exact h

/-! ### Pair-enumeration lemmas -/

lemma pairsOf_length {α : Type} (l : List α) :
    (pairsOf l).length = l.length.choose 2 := by
  induction l with
  | nil => simp [pairsOf]
  | cons x xs ih =>
      simp [pairsOf, ih, Nat.choose_succ_succ, Nat.choose_one_right, Nat.add_comm]

lemma pairsOf_pairwise {α : Type} {R : α → α → Prop} {l : List α}
    (h : l.Pairwise R) : ∀ p ∈ pairsOf l, R p.1 p.2 := by
  induction l with
  | nil => simp [pairsOf]
  | cons x xs ih =>
      intro p hp
      rcases List.mem_append.mp hp with hl | hr
      · obtain ⟨y, hy, rfl⟩ := List.mem_map.mp hl
        exact (List.pairwise_cons.mp h).1 y hy
      · exact ih (List.pairwise_cons.mp h).2 p hr

lemma pairsOf_mem {α : Type} {l : List α} {p : α × α} (hp : p ∈ pairsOf l) :
    p.1 ∈ l ∧ p.2 ∈ l := by
  induction l with
  | nil => simp [pairsOf] at hp
  | cons x xs ih =>
      rcases List.mem_append.mp hp with hl | hr
      · obtain ⟨y, hy, rfl⟩ := List.mem_map.mp hl
        exact ⟨List.mem_cons_self x xs, List.mem_cons_of_mem x hy⟩
      · obtain ⟨ha, hb⟩ := ih hr
        exact ⟨List.mem_cons_of_mem x ha, List.mem_cons_of_mem x hb⟩

/-! ### Exact-matcher lemmas -/

lemma groupRows_sorted (df : DataFrame) (col : String) (v : String) :
    (groupRows df col v).Pairwise (· < ·) :=
  (List.pairwise_lt_range df.nrows).sublist (List.filter_sublist _)

lemma mem_groupRows (df : DataFrame) (col : String) (v : String) (i : Nat) :
    i ∈ groupRows df col v ↔ i < df.nrows ∧ df.getCell col i = some v := by
  simp [groupRows, List.mem_filter, List.mem_range]

lemma count_colCells (df : DataFrame) (col : String) (v : String) :
    (colCells df col).count (some v) = (groupRows df col v).length := by
  rw [colCells, groupRows, List.count, List.countP_map, List.countP_eq_length_filter]
  rfl

lemma mem_dupValues (df : DataFrame) (col : String) (v : String) :
    v ∈ dupValues df col ↔ 2 ≤ (groupRows df col v).length := by
  rw [dupValues]
  constructor
  · intro h
    have := (List.mem_filter.mp h).2
    rw [count_colCells] at this
    exact of_decide_eq_true this
  · intro h
    apply List.mem_filter.mpr
    refine ⟨List.mem_dedup.mpr ?_, ?_⟩
    · apply List.mem_filterMap.mpr
      refine ⟨some v, ?_, rfl⟩
      apply List.count_pos_iff.mp
      rw [count_colCells]
      omega
    · rw [count_colCells]
      exact decide_eq_true h

/-! ### Claim C4 -/

/-- C4: for an exact-key column present in the table and a group of
`k ≥ 2` rows sharing the present value `v` there, the exact matcher
emits exactly `C(k,2)` candidate pairs for that group, all with score
1.0 and tier EXACT, all part of the column's emitted list; and every
match the column emits pairs two rows that share a present value in
that column. -/
theorem claim_C4 (df : DataFrame) (col : String) (v : String)
    (hcol : df.hasCol col = true)
    (hk : 2 ≤ (groupRows df col v).length) :
    (groupContribution df col v).length = (groupRows df col v).length.choose 2 ∧
    (∀ m ∈ groupContribution df col v,
        m.match_score = 1 ∧ m.match_tier = "EXACT" ∧ m ∈ exactMatchesForCol df col) ∧
    (∀ m ∈ exactMatchesForCol df col, ∃ w i j, i < j ∧ j < df.nrows ∧
        df.getCell col i = some w ∧ df.getCell col j = some w ∧
        m = ⟨rid df i, rid df j, 1, "EXACT"⟩) := by
  refine ⟨?_, ?_, ?_⟩
  · rw [groupContribution, List.length_map, pairsOf_length]
  · intro m hm
    obtain ⟨p, hp, rfl⟩ := List.mem_map.mp hm
    refine ⟨rfl, rfl, ?_⟩
    rw [exactMatchesForCol, if_pos hcol]
    exact List.mem_flatMap.mpr
      ⟨v, (mem_dupValues df col v).mpr hk, List.mem_map.mpr ⟨p, hp, rfl⟩⟩
  · intro m hm
    rw [exactMatchesForCol, if_pos hcol] at hm
    obtain ⟨w, _, hmw⟩ := List.mem_flatMap.mp hm
    obtain ⟨p, hp, rfl⟩ := List.mem_map.mp hmw
    have hij : p.1 < p.2 := pairsOf_pairwise (groupRows_sorted df col w) p hp
    obtain ⟨h1, h2⟩ := pairsOf_mem hp
    exact ⟨w, p.1, p.2, hij, ((mem_groupRows df col w p.2).mp h2).1,
      ((mem_groupRows df col w p.1).mp h1).2, ((mem_groupRows df col w p.2).mp h2).2, rfl⟩

/-- A dataframe with an order-id column whose value "A1" occurs three
times, plus explicit record ids. -/
def dfExact : DataFrame :=
  ⟨4, [⟨"record_id", Dtype.obj, [some "r0", some "r1", some "r2", some "r3"]⟩,
       ⟨"order_id", Dtype.obj, [some "A1", some "A1", some "A1", some "B7"]⟩]⟩

/-- C4 (witness): the "A1" group of three rows yields exactly
`C(3,2) = 3` pairs. -/
theorem claim_C4_witness :
    2 ≤ (groupRows dfExact "order_id" "A1").length ∧
    (groupContribution dfExact "order_id" "A1").length = 3 := by
  have h := claim_C4 dfExact "order_id" "A1" (by decide) (by decide)
  refine ⟨by decide, ?_⟩
  rw [h.1]
  decide

/-! ### Blocking lemmas -/

/-- Look up the index list of block `k` (first matching entry). -/
def lookupB : List (String × List Nat) → String → List Nat
  | [], _ => []
  | e :: rest, k => if e.1 = k then e.2 else lookupB rest k

lemma lookupB_addToBlock (bs : List (String × List Nat)) (k : String) (i : Nat)
    (k' : String) :
    lookupB (addToBlock bs k i) k' =
      if k' = k then lookupB bs k' ++ [i] else lookupB bs k' := by
  induction bs with
  | nil =>
      by_cases h : k' = k
      · subst h; simp [addToBlock, lookupB]
      · simp [addToBlock, lookupB, h, Ne.symm h]
  | cons e rest ih =>
      obtain ⟨k0, is0⟩ := e
      by_cases hk0 : k0 = k
      · subst hk0
        by_cases h : k' = k0
        · subst h; simp [addToBlock, lookupB]
        · simp [addToBlock, lookupB, h, Ne.symm h]
      · by_cases h : k' = k0
        · subst h
          simp [addToBlock, lookupB, hk0, Ne.symm hk0]
        · simp [addToBlock, lookupB, hk0, h, Ne.symm h, ih]

lemma keys_addToBlock (bs : List (String × List Nat)) (k : String) (i : Nat) :
    (addToBlock bs k i).map Prod.fst =
      if k ∈ bs.map Prod.fst then bs.map Prod.fst else bs.map Prod.fst ++ [k] := by
  induction bs with
  | nil => simp [addToBlock]
  | cons e rest ih =>
      obtain ⟨k0, is0⟩ := e
      by_cases hk0 : k0 = k
      · subst hk0
        simp [addToBlock]
      · simp only [addToBlock, if_neg hk0, List.map_cons, ih]
        by_cases hm : k ∈ rest.map Prod.fst
        · simp [hm, List.mem_cons, Ne.symm hk0]
        · simp [hm, List.mem_cons, Ne.symm hk0]

lemma nodup_keys_addToBlock (bs : List (String × List Nat)) (k : String) (i : Nat)
    (h : (bs.map Prod.fst).Nodup) : ((addToBlock bs k i).map Prod.fst).Nodup := by
  rw [keys_addToBlock]
  split
  · exact h
  · rename_i hmem
    simp [List.nodup_append, h, hmem]

lemma foldl_addToBlock_lookup (key : Nat → String) (L : List Nat)
    (bs0 : List (String × List Nat)) (k : String) :
    lookupB (L.foldl (fun bs i => addToBlock bs (key i) i) bs0) k
      = lookupB bs0 k ++ L.filter (fun i => key i == k) := by
  induction L generalizing bs0 with
  | nil => simp
  | cons x xs ih =>
      simp only [List.foldl_cons, List.filter_cons]
      rw [ih, lookupB_addToBlock]
      by_cases h : k = key x
      · simp [h, List.append_assoc]
      · have hb : (key x == k) = false := by simp [Ne.symm h]
        simp [hb, h]

lemma foldl_addToBlock_nodup (key : Nat → String) (L : List Nat)
    (bs0 : List (String × List Nat)) (h : (bs0.map Prod.fst).Nodup) :
    ((L.foldl (fun bs i => addToBlock bs (key i) i) bs0).map Prod.fst).Nodup := by
  induction L generalizing bs0 with
  | nil => exact h
  | cons x xs ih => exact ih _ (nodup_keys_addToBlock bs0 (key x) x h)

lemma foldl_addToBlock_mem_keys (key : Nat → String) (L : List Nat)
    (bs0 : List (String × List Nat)) (k : String) :
    k ∈ (L.foldl (fun bs i => addToBlock bs (key i) i) bs0).map Prod.fst ↔
      k ∈ bs0.map Prod.fst ∨ ∃ i ∈ L, key i = k := by
  induction L generalizing bs0 with
  | nil => simp
  | cons x xs ih =>
      simp only [List.foldl_cons]
      rw [ih, keys_addToBlock]
      split
      · rename_i hmem
        constructor
        · rintro (h | ⟨i, hi, hk⟩)
          · exact Or.inl h
          · exact Or.inr ⟨i, List.mem_cons_of_mem x hi, hk⟩
        · rintro (h | ⟨i, hi, hk⟩)
          · exact Or.inl h
          · rcases List.mem_cons.mp hi with rfl | hi'
            · rw [← hk]; exact Or.inl hmem
            · exact Or.inr ⟨i, hi', hk⟩
      · constructor
        · rintro (h | ⟨i, hi, hk⟩)
          · rcases List.mem_append.mp h with h' | h'
            · exact Or.inl h'
            · simp at h'
              exact Or.inr ⟨x, List.mem_cons_self x xs, h'.symm⟩
          · exact Or.inr ⟨i, List.mem_cons_of_mem x hi, hk⟩
        · rintro (h | ⟨i, hi, hk⟩)
          · exact Or.inl (List.mem_append.mpr (Or.inl h))
          · rcases List.mem_cons.mp hi with rfl | hi'
            · exact Or.inl (List.mem_append.mpr (Or.inr (by simp [hk])))
            · exact Or.inr ⟨i, hi', hk⟩

lemma entry_eq_lookupB (bs : List (String × List Nat))
    (h : (bs.map Prod.fst).Nodup) (e : String × List Nat) (he : e ∈ bs) :
    lookupB bs e.1 = e.2 := by
  induction bs with
  | nil => simp at he
  | cons b rest ih =>
      rcases List.mem_cons.mp he with rfl | hmem
      · simp [lookupB]
      · have hb : b.1 ≠ e.1 := by
          intro hcontra
          have : e.1 ∈ rest.map Prod.fst := List.mem_map.mpr ⟨e, hmem, rfl⟩
          rw [← hcontra] at this
          exact (List.nodup_cons.mp h).1 this
        simp only [lookupB, if_neg hb]
        exact ih (List.nodup_cons.mp h).2 hmem

lemma buildBlocks_lookup (df : DataFrame) (blockCol : String) (k : String) :
    lookupB (buildBlocks df blockCol) k =
      (List.range df.nrows).filter (fun i => blockKey (df.getCell blockCol i) == k) := by
  rw [buildBlocks, foldl_addToBlock_lookup]
  rfl

lemma buildBlocks_keys_nodup (df : DataFrame) (blockCol : String) :
    ((buildBlocks df blockCol).map Prod.fst).Nodup :=
  foldl_addToBlock_nodup _ _ [] List.nodup_nil

lemma buildBlocks_entry (df : DataFrame) (blockCol : String)
    (e : String × List Nat) (he : e ∈ buildBlocks df blockCol) :
    e.2 = (List.range df.nrows).filter
      (fun i => blockKey (df.getCell blockCol i) == e.1) := by
  rw [← buildBlocks_lookup,
      entry_eq_lookupB (buildBlocks df blockCol) (buildBlocks_keys_nodup df blockCol) e he]

lemma buildBlocks_mem_keys (df : DataFrame) (blockCol : String) (k : String) :
    k ∈ (buildBlocks df blockCol).map Prod.fst ↔
      ∃ i, i < df.nrows ∧ blockKey (df.getCell blockCol i) = k := by
  rw [buildBlocks, foldl_addToBlock_mem_keys]
  simp [List.mem_range]

lemma buildBlocks_entry_sorted (df : DataFrame) (blockCol : String)
    (e : String × List Nat) (he : e ∈ buildBlocks df blockCol) :
    e.2.Pairwise (· < ·) := by
  rw [buildBlocks_entry df blockCol e he]
  exact (List.pairwise_lt_range df.nrows).sublist (List.filter_sublist _)

lemma buildBlocks_entry_mem (df : DataFrame) (blockCol : String)
    (e : String × List Nat) (he : e ∈ buildBlocks df blockCol) (i : Nat) :
    i ∈ e.2 ↔ i < df.nrows ∧ blockKey (df.getCell blockCol i) = e.1 := by
  rw [buildBlocks_entry df blockCol e he]
  simp [List.mem_filter, List.mem_range]

/-! ### Claim C6 -/

/-- The block-key derivation as the claim words it: `"unknown"` when
the value is missing or its lower-cased string form is shorter than 3
characters; otherwise the first whitespace-delimited token of the
lower-cased value truncated to 3 characters, or the first 3 characters
when there is no token boundary. -/
def claimBlockKey (c : Cell) : String :=
  match c with
  | none => "unknown"
  | some s =>
      let l := lowerPy s
      if l.length < 3 then "unknown"
      else
        match firstToken l with
        | some w => w.take 3
        | none => l.take 3

lemma blockKey_eq_claim (c : Cell) : blockKey c = claimBlockKey c := by
  cases c with
  | none => simp [blockKey, claimBlockKey]
  | some s =>
      simp only [blockKey, claimBlockKey, pyStr]
      by_cases h : (lowerPy s).length < 3
      · simp [h]
      · simp [h]

/-- C6: every record `i` of the table is assigned to exactly one block,
and that block's key is exactly the claimed derivation of the record's
blocking-column value — no record is dropped from blocking. -/
theorem claim_C6 (df : DataFrame) (blockCol : String) (i : Nat)
    (hi : i < df.nrows) :
    ∃ e, e ∈ buildBlocks df blockCol ∧ i ∈ e.2 ∧
      e.1 = claimBlockKey (df.getCell blockCol i) ∧
      ∀ e', e' ∈ buildBlocks df blockCol → i ∈ e'.2 → e' = e := by
  have hkey : blockKey (df.getCell blockCol i) ∈ (buildBlocks df blockCol).map Prod.fst :=
    (buildBlocks_mem_keys df blockCol _).mpr ⟨i, hi, rfl⟩
  obtain ⟨e, he, hke⟩ := List.mem_map.mp hkey
  have himem : i ∈ e.2 :=
    (buildBlocks_entry_mem df blockCol e he i).mpr ⟨hi, hke.symm⟩
  refine ⟨e, he, himem, by rw [hke, blockKey_eq_claim], ?_⟩
  intro e' he' hi'
  have hk' : blockKey (df.getCell blockCol i) = e'.1 :=
    ((buildBlocks_entry_mem df blockCol e' he' i).mp hi').2
  have hfst : e'.1 = e.1 := by rw [← hk', hke]
  have hsnd : e'.2 = e.2 := by
    rw [buildBlocks_entry df blockCol e' he', buildBlocks_entry df blockCol e he, hfst]
  exact Prod.ext hfst hsnd

/-- C6 (witness): record 0 of the concrete table is in exactly one
block. -/
theorem claim_C6_witness :
    ∃ e, e ∈ buildBlocks dfExact "order_id" ∧ 0 ∈ e.2 ∧
      e.1 = claimBlockKey (dfExact.getCell "order_id" 0) ∧
      ∀ e', e' ∈ buildBlocks dfExact "order_id" → 0 ∈ e'.2 → e' = e :=
  claim_C6 dfExact "order_id" 0 (by decide)

/-! ### Claim C7 -/

/-- C7: a block larger than the configured maximum contributes zero
candidate pairs regardless of its contents; dually, every match the
blocking-and-scoring tier emits comes from a block of size between 2
and the maximum, pairing two rows of that block in row order. -/
theorem claim_C7 (df : DataFrame) (blockCol : String) (restCols : List String)
    (threshold : ℚ) (tier : String) (mbs : Nat)
    (hhas : df.hasCol blockCol = true) :
    (∀ e ∈ buildBlocks df blockCol, e.2.length > mbs →
        blockContribution df (blockCol :: restCols) threshold tier mbs e.2 = []) ∧
    (∀ m ∈ fuzzy_match_strategy df (blockCol :: restCols) threshold tier mbs,
        ∃ e, e ∈ buildBlocks df blockCol ∧ 2 ≤ e.2.length ∧ e.2.length ≤ mbs ∧
          ∃ i j, i < j ∧ j < df.nrows ∧ i ∈ e.2 ∧ j ∈ e.2 ∧
            m.record_id_l = rid df i ∧ m.record_id_r = rid df j) := by
  constructor
  · intro e _ hlen
    rw [blockContribution, if_pos (Or.inr hlen)]
  · intro m hm
    rw [fuzzy_match_strategy] at hm
    rw [if_pos hhas] at hm
    obtain ⟨e, he, hme⟩ := List.mem_flatMap.mp hm
    by_cases hcond : e.2.length < 2 ∨ e.2.length > mbs
    · rw [blockContribution, if_pos hcond] at hme
      simp at hme
    · push_neg at hcond
      rw [blockContribution, if_neg (by push_neg; exact hcond)] at hme
      obtain ⟨p, hp, hf⟩ := List.mem_filterMap.mp hme
      by_cases hsc : calculate_fuzzy_score df p.1 p.2 (blockCol :: restCols) ≥ threshold
      · simp only [if_pos hsc, Option.some.injEq] at hf
        have hij : p.1 < p.2 :=
          pairsOf_pairwise (buildBlocks_entry_sorted df blockCol e he) p hp
        obtain ⟨h1, h2⟩ := pairsOf_mem hp
        have hj : p.2 < df.nrows :=
          ((buildBlocks_entry_mem df blockCol e he p.2).mp h2).1
        exact ⟨e, he, hcond.1, hcond.2, p.1, p.2, hij, hj, h1, h2,
          by rw [← hf], by rw [← hf]⟩
      · simp only [if_neg hsc] at hf
        exact absurd hf (by simp)

/-- C7 (witness): with cap 3, the concrete 4-element "unknown" block
(all values of the blocking column are shorter than 3 characters)
contributes no pairs. -/
theorem claim_C7_witness :
    blockContribution dfExact ["order_id"] 85 "LOW" 3 [0, 1, 2, 3] = [] := by
  have h := (claim_C7 dfExact "order_id" [] 85 "LOW" 3 (by decide)).1
  exact h ("unknown", [0, 1, 2, 3]) (by decide) (by decide)

/-! ### Fuzzy-scorer lemmas -/

/-- The similarity one column contributes for rows `i, j`. -/
def perColScore (df : DataFrame) (i j : Nat) (col : String) : ℚ :=
  fuzz_ratio (normVal df col i) (normVal df col j)

lemma score_foldl (df : DataFrame) (i j : Nat) (cols : List String) (t : ℚ) (v : Nat) :
    (cols.foldl
      (fun (acc : ℚ × Nat) col =>
        if contributesCol df i j col then
          (acc.1 + fuzz_ratio (normVal df col i) (normVal df col j), acc.2 + 1)
        else acc)
      (t, v))
    = (t + ((contributingCols df i j cols).map (perColScore df i j)).sum,
       v + (contributingCols df i j cols).length) := by
  induction cols generalizing t v with
  | nil => simp [contributingCols]
  | cons c cs ih =>
      simp only [List.foldl_cons, contributingCols, List.filter_cons]
      by_cases h : contributesCol df i j c
      · rw [if_pos h, if_pos h, ih]
        simp only [contributingCols, List.map_cons, List.sum_cons, List.length_cons,
          perColScore]
        refine Prod.ext ?_ ?_
        · ring
        · omega
      · rw [if_neg h, if_neg (by simp [h]), ih]
        rfl

/-! ### Claim C8 -/

/-- C8: the fuzzy scorer skips exactly the columns whose normalized
values are identical or where either value is empty, and returns the
arithmetic mean of the per-column similarities over the contributing
columns; in particular, two records identical in every compared column
score 0, not 100. -/
theorem claim_C8 (df : DataFrame) (i j : Nat) (cols : List String) :
    (calculate_fuzzy_score df i j cols =
      if contributingCols df i j cols = [] then 0
      else ((contributingCols df i j cols).map (perColScore df i j)).sum /
           ((contributingCols df i j cols).length : ℚ)) ∧
    ((∀ col ∈ cols, df.getCell col i = df.getCell col j) →
      calculate_fuzzy_score df i j cols = 0) := by
  have hmain : calculate_fuzzy_score df i j cols =
      if contributingCols df i j cols = [] then 0
      else ((contributingCols df i j cols).map (perColScore df i j)).sum /
           ((contributingCols df i j cols).length : ℚ) := by
    unfold calculate_fuzzy_score
    rw [score_foldl df i j cols 0 0]
    simp only [zero_add]
    by_cases hc : contributingCols df i j cols = []
    · simp [hc]
    · rw [if_neg hc]
      rw [if_pos (List.length_pos.mpr hc)]
  refine ⟨hmain, ?_⟩
  intro h
  have hc : contributingCols df i j cols = [] := by
    apply List.filter_eq_nil_iff.mpr
    intro col hcol
    simp [contributesCol, normVal, h col hcol]
  rw [hmain, if_pos hc]

/-- C8 (witness): two rows identical in the compared column score 0. -/
theorem claim_C8_witness : calculate_fuzzy_score dfExact 0 1 ["order_id"] = 0 :=
  (claim_C8 dfExact 0 1 ["order_id"]).2 (by decide)

/-! ### Claim C9 -/

/-- C9: a missing value stringifies to the literal `"nan"`, so when one
record's value in a compared column is missing and the other record's
normalized value is non-empty and different from `"nan"`, that column
is NOT skipped: it contributes the string similarity between `"nan"`
and the other value. -/
theorem claim_C9 (df : DataFrame) (i j : Nat) (col : String) (cols : List String)
    (hmiss : df.getCell col i = none)
    (hhas : df.hasCol col = true)
    (hmem : col ∈ cols)
    (hne : normVal df col j ≠ "")
    (hnan : normVal df col j ≠ "nan") :
    normVal df col i = "nan" ∧
    col ∈ contributingCols df i j cols ∧
    perColScore df i j col = fuzz_ratio "nan" (normVal df col j) := by
  have h1 : normVal df col i = "nan" := by
    unfold normVal
    rw [hmiss]
    rfl
  have h2 : contributesCol df i j col = true := by
    simp [contributesCol, hhas, h1, hne, Ne.symm hnan]
  exact ⟨h1, List.mem_filter.mpr ⟨hmem, h2⟩, by unfold perColScore; rw [h1]⟩

/-- A dataframe with one missing city and one present city. -/
def dfNan : DataFrame :=
  ⟨2, [⟨"city", Dtype.obj, [none, some "Lisbon"]⟩]⟩

/-- C9 (witness): the missing city of row 0 is compared as the string
`"nan"` against `"lisbon"` instead of being skipped. -/
theorem claim_C9_witness :
    normVal dfNan "city" 0 = "nan" ∧
    "city" ∈ contributingCols dfNan 0 1 ["city"] ∧
    perColScore dfNan 0 1 "city" = fuzz_ratio "nan" (normVal dfNan "city" 1) :=
  claim_C9 dfNan 0 1 "city" ["city"] (by decide) (by decide) (by decide)
    (by decide) (by decide)

/-! ### Aggregation lemmas -/

lemma dedupGo_subset (seen : List (Cell × Cell)) (l : List Match) :
    ∀ m ∈ dedupGo seen l, m ∈ l := by
  induction l generalizing seen with
  | nil => simp [dedupGo]
  | cons a rest ih =>
      intro m hm
      rw [dedupGo] at hm
      split at hm
      · exact List.mem_cons_of_mem a (ih seen m hm)
      · rcases List.mem_cons.mp hm with rfl | hm'
        · exact List.mem_cons_self _ _
        · exact List.mem_cons_of_mem a (ih _ m hm')

lemma dedupGo_key_not_seen (seen : List (Cell × Cell)) (l : List Match) :
    ∀ m ∈ dedupGo seen l, keyOf m ∉ seen := by
  induction l generalizing seen with
  | nil => simp [dedupGo]
  | cons a rest ih =>
      intro m hm
      rw [dedupGo] at hm
      split at hm
      · exact ih seen m hm
      · rcases List.mem_cons.mp hm with rfl | hm'
        · rename_i hnot; exact hnot
        · intro hcontra
          exact ih _ m hm' (List.mem_cons_of_mem _ hcontra)

lemma dedupGo_pairwise (seen : List (Cell × Cell)) (l : List Match) :
    (dedupGo seen l).Pairwise (fun a b => keyOf a ≠ keyOf b) := by
  induction l generalizing seen with
  | nil => simp [dedupGo]
  | cons a rest ih =>
      rw [dedupGo]
      split
      · exact ih seen
      · refine List.Pairwise.cons ?_ (ih _)
        intro b hb heq
        exact dedupGo_key_not_seen _ rest b hb (by rw [← heq]; exact List.mem_cons_self _ _)

lemma dedupGo_first (seen : List (Cell × Cell)) (l : List Match) (m : Match)
    (hm : m ∈ l) (hseen : keyOf m ∉ seen) :
    ∃ m', l.find? (fun x => keyOf x == keyOf m) = some m' ∧
      m' ∈ dedupGo seen l ∧ keyOf m' = keyOf m := by
  induction l generalizing seen with
  | nil => simp at hm
  | cons a rest ih =>
      by_cases hak : keyOf a = keyOf m
      · refine ⟨a, ?_, ?_, hak⟩
        · simp [List.find?, hak]
        · rw [dedupGo, if_neg (by rw [hak]; exact hseen)]
          exact List.mem_cons_self a _
      · have hm' : m ∈ rest := by
          rcases List.mem_cons.mp hm with rfl | h
          · exact absurd rfl hak
          · exact h
        have hfind : (keyOf a == keyOf m) = false := by simp [hak]
        rw [dedupGo]
        split
        · obtain ⟨m', h1, h2, h3⟩ := ih seen hm' hseen
          exact ⟨m', by simp [List.find?, hfind, h1], h2, h3⟩
        · have hnot : keyOf m ∉ (keyOf a :: seen) := by
            intro hc
            rcases List.mem_cons.mp hc with h | h
            · exact hak h.symm
            · exact hseen h
          obtain ⟨m', h1, h2, h3⟩ := ih (keyOf a :: seen) hm' hnot
          exact ⟨m', by simp [List.find?, hfind, h1], List.mem_cons_of_mem a h2, h3⟩

/-- Every match a present exact-key column emits pairs two earlier/later
rows and carries tier EXACT. -/
lemma exactMatchesForCol_struct (df : DataFrame) (col : String) :
    ∀ m ∈ exactMatchesForCol df col, ∃ i j, i < j ∧ j < df.nrows ∧
      m.record_id_l = rid df i ∧ m.record_id_r = rid df j ∧
      m.match_tier = "EXACT" := by
  intro m hm
  rw [exactMatchesForCol] at hm
  split at hm
  · obtain ⟨w, _, hmw⟩ := List.mem_flatMap.mp hm
    obtain ⟨p, hp, rfl⟩ := List.mem_map.mp hmw
    have hij : p.1 < p.2 := pairsOf_pairwise (groupRows_sorted df col w) p hp
    obtain ⟨_, h2⟩ := pairsOf_mem hp
    exact ⟨p.1, p.2, hij, ((mem_groupRows df col w p.2).mp h2).1, rfl, rfl, rfl⟩
  · simp at hm

lemma find_exact_struct (df : DataFrame) (cols : List String) :
    ∀ m ∈ find_exact_matches df cols, ∃ i j, i < j ∧ j < df.nrows ∧
      m.record_id_l = rid df i ∧ m.record_id_r = rid df j ∧
      m.match_tier = "EXACT" := by
  intro m hm
  obtain ⟨col, _, hmc⟩ := List.mem_flatMap.mp hm
  exact exactMatchesForCol_struct df col m hmc

/-- Every match the blocking strategy emits pairs two rows in row
order. -/
lemma fuzzy_struct (df : DataFrame) (cols : List String) (threshold : ℚ)
    (tier : String) (mbs : Nat) :
    ∀ m ∈ fuzzy_match_strategy df cols threshold tier mbs, ∃ i j, i < j ∧
      j < df.nrows ∧ m.record_id_l = rid df i ∧ m.record_id_r = rid df j := by
  intro m hm
  match cols with
  | [] => simp [fuzzy_match_strategy] at hm
  | blockCol :: restCols =>
      rw [fuzzy_match_strategy] at hm
      split at hm
      · obtain ⟨e, he, hme⟩ := List.mem_flatMap.mp hm
        rw [blockContribution] at hme
        split at hme
        · simp at hme
        · obtain ⟨p, hp, hf⟩ := List.mem_filterMap.mp hme
          have hij : p.1 < p.2 :=
            pairsOf_pairwise (buildBlocks_entry_sorted df blockCol e he) p hp
          obtain ⟨_, h2⟩ := pairsOf_mem hp
          have hj : p.2 < df.nrows :=
            ((buildBlocks_entry_mem df blockCol e he p.2).mp h2).1
          by_cases hsc : calculate_fuzzy_score df p.1 p.2 (blockCol :: restCols) ≥ threshold
          · simp only [if_pos hsc, Option.some.injEq] at hf
            exact ⟨p.1, p.2, hij, hj, by rw [← hf], by rw [← hf]⟩
          · simp only [if_neg hsc] at hf
            exact absurd hf (by simp)
      · simp at hm

lemma allMatches_struct (df : DataFrame) (ct : ColTypes) :
    ∀ m ∈ allMatches df ct, ∃ i j, i < j ∧ j < df.nrows ∧
      m.record_id_l = rid df i ∧ m.record_id_r = rid df j := by
  intro m hm
  rw [allMatches] at hm
  rcases List.mem_append.mp hm with hm' | hlow
  · rcases List.mem_append.mp hm' with hm'' | hmed
    · rcases List.mem_append.mp hm'' with hex | hhigh
      · obtain ⟨i, j, h1, h2, h3, h4, _⟩ := find_exact_struct df ct.exact m hex
        exact ⟨i, j, h1, h2, h3, h4⟩
      · rw [highMatches] at hhigh
        split at hhigh
        · exact fuzzy_struct df ct.names 95 "HIGH" 100 m hhigh
        · simp at hhigh
    · rw [medMatches] at hmed
      split at hmed
      · exact fuzzy_struct df ct.text 90 "MEDIUM" 100 m hmed
      · simp at hmed
  · rw [lowMatches] at hlow
    split at hlow
    · exact fuzzy_struct df (ct.strings.take 2) 85 "LOW" 100 m hlow
    · simp at hlow

/-! ### Claim C5 -/

/-- Two candidates denote the same unordered record pair. -/
def sameUnordered (a b : Match) : Prop :=
  (a.record_id_l = b.record_id_l ∧ a.record_id_r = b.record_id_r) ∨
  (a.record_id_l = b.record_id_r ∧ a.record_id_r = b.record_id_l)

/-- C5: when record ids are distinct, the deduplicated final match set
contains each unordered pair at most once; the candidate kept for a key
is the first one encountered in tier order; in particular a pair also
found by the exact tier survives tagged EXACT. -/
theorem claim_C5 (df : DataFrame) (ct : ColTypes)
    (hnd : ((List.range df.nrows).map (rid df)).Nodup) :
    (finalMatches df ct).Pairwise (fun a b => ¬ sameUnordered a b) ∧
    (∀ m ∈ allMatches df ct, ∃ m',
        (allMatches df ct).find? (fun x => keyOf x == keyOf m) = some m' ∧
        m' ∈ finalMatches df ct ∧ keyOf m' = keyOf m) ∧
    (∀ m ∈ find_exact_matches df ct.exact, ∃ m',
        m' ∈ finalMatches df ct ∧ keyOf m' = keyOf m ∧
        m'.match_tier = "EXACT") := by
  have hinj : ∀ i j, i < df.nrows → j < df.nrows → rid df i = rid df j → i = j := by
    intro i j hi hj he
    exact List.inj_on_of_nodup_map hnd (List.mem_range.mpr hi) (List.mem_range.mpr hj) he
  refine ⟨?_, ?_, ?_⟩
  · have hpw := dedupGo_pairwise [] (allMatches df ct)
    refine hpw.imp_of_mem ?_
    intro a b ha hb hkne hsame
    have hsa := allMatches_struct df ct a (dedupGo_subset [] _ a ha)
    have hsb := allMatches_struct df ct b (dedupGo_subset [] _ b hb)
    obtain ⟨i1, j1, hij1, hj1, hal, har⟩ := hsa
    obtain ⟨i2, j2, hij2, hj2, hbl, hbr⟩ := hsb
    rcases hsame with ⟨h1, h2⟩ | ⟨h1, h2⟩
    · exact hkne (Prod.ext h1 h2)
    · have e1 : i1 = j2 := hinj i1 j2 (lt_trans hij1 hj1) hj2
        (by rw [← hal, ← hbr, h1])
      have e2 : j1 = i2 := hinj j1 i2 hj1 (lt_trans hij2 hj2)
        (by rw [← har, ← hbl, h2])
      omega
  · intro m hm
    exact dedupGo_first [] (allMatches df ct) m hm (List.not_mem_nil _)
  · intro m hm
    have hma : m ∈ allMatches df ct := by
      rw [allMatches]
      exact List.mem_append.mpr (Or.inl (List.mem_append.mpr (Or.inl
        (List.mem_append.mpr (Or.inl hm)))))
    obtain ⟨m', hfind, hmem', hkey⟩ :=
      dedupGo_first [] (allMatches df ct) m hma (List.not_mem_nil _)
    have hexfind : ((find_exact_matches df ct.exact).find?
        (fun x => keyOf x == keyOf m)).isSome :=
      List.find?_isSome.mpr ⟨m, hm, by simp⟩
    obtain ⟨me, hme⟩ := Option.isSome_iff_exists.mp hexfind
    have : (allMatches df ct).find? (fun x => keyOf x == keyOf m) = some me := by
      rw [allMatches, List.find?_append, List.find?_append, List.find?_append, hme]
      rfl
    have hme' : m' = me := by
      rw [this] at hfind
      exact (Option.some_inj.mp hfind).symm
    subst hme'
    obtain ⟨_, _, _, _, _, _, htier⟩ :=
      find_exact_struct df ct.exact m' (List.mem_of_find?_eq_some hme)
    exact ⟨m', hmem', hkey, htier⟩

/-- C5 (witness): on the concrete table with distinct record ids, the
final match set has each unordered pair at most once. -/
theorem claim_C5_witness :
    (finalMatches dfExact ⟨["order_id"], [], [], [], []⟩).Pairwise
      (fun a b => ¬ sameUnordered a b) :=
  (claim_C5 dfExact ⟨["order_id"], [], [], [], []⟩ (by decide)).1

/-! ### Claim C1 -/

/-- An unreadable (e.g. missing) input file: both the full read and the
1000-row fallback read raise. -/
def unreadableFile : InputFile :=
  ⟨Except.error "FileNotFoundError", Except.error "FileNotFoundError"⟩

/-- C1 (counterexample): for an unreadable input file the driver DOES
propagate a failure — the fallback's own `pd.read_csv(path, nrows=1000)`
is unguarded, so its exception escapes `run_dynamic_dedup` instead of
producing the zero-match result. -/
theorem claim_C1_counterexample :
    run_dynamic_dedup unreadableFile = Except.error "FileNotFoundError" := by rfl

/-- C1 (amended): whenever the guarded attempt (full read + pipeline)
fails but the fallback 1000-row read succeeds, the driver propagates no
failure: it returns the zero-match result over the fallback rows, with
`duplicate_pairs = 0` and all four tier counts 0.  When the fallback
read itself also fails (unreadable file), that exception propagates to
the caller. -/
theorem claim_C1_amended (f : InputFile) (e : String) (df : DataFrame)
    (hfail : tryBranch f = Except.error e)
    (hhead : f.headRead = Except.ok df) :
    run_dynamic_dedup f = Except.ok (fallbackResult df) ∧
    (fallbackResult df).duplicate_pairs = 0 ∧
    (fallbackResult df).tiers = ⟨0, 0, 0, 0⟩ ∧
    (fallbackResult df).input_records = df.nrows := by
  refine ⟨?_, rfl, rfl, rfl⟩
  rw [run_dynamic_dedup, hfail, hhead]

/-- A malformed-midway file: the full read raises, the 1000-row
truncated read succeeds. -/
def malformedFile : InputFile :=
  ⟨Except.error "ParserError", Except.ok dfSmall⟩

/-- C1 (amended, witness): the amended statement at a concrete
malformed file whose truncated re-read succeeds. -/
theorem claim_C1_amended_witness :
    run_dynamic_dedup malformedFile = Except.ok (fallbackResult dfSmall) ∧
    (fallbackResult dfSmall).duplicate_pairs = 0 ∧
    (fallbackResult dfSmall).tiers = ⟨0, 0, 0, 0⟩ ∧
    (fallbackResult dfSmall).input_records = dfSmall.nrows :=
  claim_C1_amended malformedFile "ParserError" dfSmall (by rfl) (by rfl)
